import Mathlib

/-!
Verification of the strapi-Next.js-Blog front end.

This file shallowly embeds the logic of the repository's data-access layer
(`src/lib/api.ts`), its page assemblers (`src/app/page.tsx`,
`src/app/category/[slug]/page.tsx`, `src/app/sitemap.ts`, the sidebar
component) and the cache-invalidation webhook route, and proves the
testable properties stated in the repository's specification.

JavaScript numbers that can be `NaN` are embedded as `Option Int`
(with `none` playing the role of `NaN`); fallible operations are embedded
as `Except`/`Option`; JSON values are embedded as an inductive type.
-/

namespace Blog

/-! ## JavaScript primitives used by the pages -/

/-- Whitespace characters skipped by JavaScript `parseInt` before parsing:
space, tab, line feed, carriage return, vertical tab, form feed (by their
code points). -/
def isJsSpace (c : Char) : Bool :=
  c.toNat = 32 || c.toNat = 9 || c.toNat = 10 || c.toNat = 13 || c.toNat = 11 || c.toNat = 12

/-- Decimal digit characters, by their code-point range. -/
def isDigitChar (c : Char) : Bool :=
  48 ≤ c.toNat && c.toNat ≤ 57

/-- Value of a list of decimal digit characters, most significant first. -/
def digitsVal (ds : List Char) : Nat :=
  ds.foldl (fun a c => a * 10 + (c.toNat - 48)) 0

/-- Longest decimal-digit run at the start of the character list, as a
number; `none` when the list does not start with a digit. -/
def digitRun (cs : List Char) : Option Nat :=
  let ds := cs.takeWhile isDigitChar
  if ds.isEmpty then none else some (digitsVal ds)

/-- Core of JavaScript `parseInt(s, 10)` after whitespace has been skipped:
an optional sign followed by the longest digit run; `none` models `NaN`. -/
def jsParseIntCore (cs : List Char) : Option Int :=
  match cs with
  | [] => none
  | c :: rest =>
    if c = '-' then (digitRun rest).map (fun n => -(n : Int))
    else if c = '+' then (digitRun rest).map (fun n => (n : Int))
    else (digitRun (c :: rest)).map (fun n => (n : Int))

/-- JavaScript `parseInt(s, 10)`: skip leading whitespace, then parse an
optionally signed decimal digit run; `none` models `NaN`. -/
def jsParseInt (s : String) : Option Int :=
  jsParseIntCore (s.data.dropWhile isJsSpace)

/-- JavaScript `>` on a possibly-`NaN` number and an ordinary number:
every comparison with `NaN` is false. -/
def jsGtInt (a : Option Int) (b : Int) : Bool :=
  match a with
  | some x => x > b
  | none => false

/-- JavaScript `<` on a possibly-`NaN` number and an ordinary number. -/
def jsLtInt (a : Option Int) (b : Int) : Bool :=
  match a with
  | some x => x < b
  | none => false

/-- Addition of a constant to a possibly-`NaN` number (`NaN + k = NaN`). -/
def jsAddInt (a : Option Int) (b : Int) : Option Int :=
  a.map (fun x => x + b)

/-- String interpolation of a possibly-`NaN` number. -/
def jsNumToString : Option Int → String
  | none => "NaN"
  | some n => toString n

/-- JavaScript `x || y` for an optional string `x`: `y` when `x` is absent
(`undefined`/`null`) or is the empty string (falsy), else `x`. -/
def jsOrElse (a : Option String) (b : String) : String :=
  match a with
  | none => b
  | some s => if s = "" then b else s

/-! ## Data model (section 3 of the specification) -/

/-- Category record as returned by the CMS (`/api/categories`), with the
fields this front end reads. -/
structure Category where
  id : Nat
  name : String
  slug : String
  description : String
  createdAt : String
  updatedAt : Option String
deriving DecidableEq, Repr

/-- Post record as returned by the CMS (`/api/blogs`), with the fields this
front end reads. -/
structure Post where
  id : Nat
  title : String
  slug : String
  description : String
  createdAt : String
  updatedAt : Option String
  categories : List Category
deriving DecidableEq, Repr

/-- Pagination metadata of a list response
(`meta.pagination` in the CMS JSON). -/
structure Pagination where
  page : Int
  pageSize : Int
  pageCount : Int
  total : Int
deriving DecidableEq, Repr

/-- Response of the CMS list endpoint: `{ data: [...], meta: { pagination } }`. -/
structure ListResponse where
  data : List Post
  meta : Pagination
deriving DecidableEq, Repr

/-- Error thrown by `fetchData` in `src/lib/api.ts` on a non-success HTTP
status: carries the status and the response body text. -/
structure FetchError where
  status : Nat
  bodyText : String
deriving DecidableEq, Repr

/-! ## Content Client (`src/lib/api.ts`) -/

/-- Embedding of `getPostBySlug` from `src/lib/api.ts` after the HTTP
exchange: on a successful fetch the function returns `data.data[0] ?? null`
(the head of the returned array, or the not-found sentinel); a failed fetch
propagates the `FetchError`. -/
def getPostBySlug (fetched : Except FetchError ListResponse) : Except FetchError (Option Post) :=
  match fetched with
  | .error e => .error e
  | .ok r => .ok r.data.head?

/-- Modelled from the spec: the CMS backend's `$eq` filter on the `slug`
field (requested by `getPostBySlug` via `filters: { slug: { $eq: slug } }`)
keeps exactly the posts whose slug equals the argument, by exact,
case-sensitive string equality, preserving their order. The backend itself
is an external collaborator and is not part of the repository. -/
def slugFilter (store : List Post) (s : String) : List Post :=
  store.filter (fun p => p.slug == s)

/-! ## Listing page assemblers (`src/app/page.tsx`,
`src/app/category/[slug]/page.tsx`) -/

/-- Embedding of the page-number computation shared by `page.tsx` and
`category/[slug]/page.tsx`:
`const page = searchParams?.page ? parseInt(searchParams.page, 10) : 1;`.
`none` as argument models an absent parameter; a present empty string is
falsy in JavaScript, so it also yields 1. The result `none` models `NaN`. -/
def pageParam (param : Option String) : Option Int :=
  match param with
  | none => some 1
  | some s => if s = "" then some 1 else jsParseInt s

/-- Page size fixed by both listing pages: `const pageSize = 10;`. -/
def pageSizeUsed : Nat := 10

/-- Pagination control rendered in a listing page's footer. -/
inductive Control where
  | prevLink (href : String)
  | pageIndicator (page : Option Int) (pageCount : Int)
  | nextLink (href : String)
deriving DecidableEq, Repr

/-- Whether a control is the "Previous Page" link. -/
def isPrevCtrl : Control → Bool
  | .prevLink _ => true
  | _ => false

/-- Whether a control is the "Next Page" link. -/
def isNextCtrl : Control → Bool
  | .nextLink _ => true
  | _ => false

/-- Embedding of the pagination footer of `src/app/page.tsx`: the
"Previous Page" link is rendered exactly when `page > 1`, the
"Next Page" link exactly when `page < pageCount`, with the page indicator
between them. -/
def blogListControls (page : Option Int) (pageCount : Int) : List Control :=
  (if jsGtInt page 1 then [.prevLink ("/?page=" ++ jsNumToString (jsAddInt page (-1)))] else [])
  ++ [.pageIndicator page pageCount]
  ++ (if jsLtInt page pageCount then [.nextLink ("/?page=" ++ jsNumToString (jsAddInt page 1))] else [])

/-- Embedding of the pagination footer of
`src/app/category/[slug]/page.tsx` (same structure, category-scoped hrefs). -/
def categoryControls (slug : String) (page : Option Int) (pageCount : Int) : List Control :=
  (if jsGtInt page 1 then
    [.prevLink ("/category/" ++ slug ++ "?page=" ++ jsNumToString (jsAddInt page (-1)))] else [])
  ++ [.pageIndicator page pageCount]
  ++ (if jsLtInt page pageCount then
    [.nextLink ("/category/" ++ slug ++ "?page=" ++ jsNumToString (jsAddInt page 1))] else [])

/-! ## Category listing page (`src/app/category/[slug]/page.tsx`) -/

/-- Response destructured by the category page; `data` is `none` when the
backend returned no `data` field (the `!posts` guard in the source). -/
structure CategoryListResponse where
  data : Option (List Post)
  meta : Pagination
deriving DecidableEq, Repr

/-- Rendering outcome of the category page: either the `notFound()` signal
to the routing layer, or a rendered page. -/
inductive CategoryRender where
  | notFound
  | page (categoryName : String) (posts : List Post) (controls : List Control)
deriving DecidableEq, Repr

/-- Embedding of the category-name computation:
`posts[0].categories.find(cat => cat.slug === params.slug)?.name || params.slug`. -/
def categoryNameOf (posts : List Post) (slug : String) : String :=
  match posts with
  | [] => slug
  | p :: _ =>
    match p.categories.find? (fun c => c.slug == slug) with
    | some c => jsOrElse (some c.name) slug
    | none => slug

/-- Embedding of the `CategoryPage` assembler: after fetching, it calls
`notFound()` when `!posts || posts.length === 0`, and otherwise renders the
heading plus the pagination controls. -/
def categoryPage (slug : String) (pageQ : Option String) (resp : CategoryListResponse) :
    CategoryRender :=
  match resp.data with
  | none => .notFound
  | some posts =>
    if posts.isEmpty then .notFound
    else
      .page (categoryNameOf posts slug) posts
        (categoryControls slug (pageParam pageQ) resp.meta.pageCount)

/-! ## Cache-invalidation webhook (`src/app/api/revalidate/route.ts`) -/

/-- JSON value as parsed from the webhook request body. -/
inductive JsonVal where
  | jnull
  | jbool (b : Bool)
  | jnum (n : Int)
  | jstr (s : String)
  | jobj (fields : List (String × JsonVal))
deriving Repr

/-- JavaScript truthiness of a JSON value. -/
def JsonVal.truthy : JsonVal → Bool
  | .jnull => false
  | .jbool b => b
  | .jnum n => n != 0
  | .jstr s => s != ""
  | .jobj _ => true

/-- Property access `v.k` on a parsed JSON value: a field of an object,
`undefined` (here `none`) otherwise. -/
def JsonVal.getField : JsonVal → String → Option JsonVal
  | .jobj fields, k => (fields.find? (fun f => f.1 == k)).map (fun f => f.2)
  | _, _ => none

/-- Template-literal coercion of a primitive JSON value to a string, as in
the tag `` `blog_post:${entry.slug}` ``. -/
def JsonVal.jsToString : JsonVal → String
  | .jnull => "null"
  | .jbool b => if b then "true" else "false"
  | .jnum n => toString n
  | .jstr s => s
  | .jobj _ => "[object Object]"

/-- Truthiness of a possibly-`undefined` value. -/
def jsTruthy : Option JsonVal → Bool
  | none => false
  | some v => v.truthy

/-- Strict equality `v === lit` between a possibly-`undefined` JSON value
and a string literal. -/
def jsStrictEqStr (v : Option JsonVal) (lit : String) : Bool :=
  match v with
  | some (.jstr s) => s == lit
  | _ => false

/-- Whether the first list starts with the second one. -/
def charsStartWith : List Char → List Char → Bool
  | _, [] => true
  | [], _ :: _ => false
  | c :: cs, p :: ps => c = p && charsStartWith cs ps

/-- JavaScript `s.startsWith(t)`. -/
def jsStartsWith (s t : String) : Bool :=
  charsStartWith s.data t.data

/-- Runtime exception escaping the webhook handler (it has no try/catch). -/
inductive JsError where
  | jsonParseError
  | typeError (msg : String)
deriving DecidableEq, Repr

/-- HTTP response produced with `NextResponse.json(body, { status })`. -/
structure HttpResponse where
  status : Nat
  body : JsonVal
deriving Repr

/-- Outcome of the webhook handler: the response together with the cache
tags passed to `revalidateTag`, in call order. -/
structure WebhookOutcome where
  response : HttpResponse
  revalidatedTags : List String
deriving Repr

/-- Tag for the entry-specific cache, from the source's
`if (entry && entry.slug) revalidateTag(tagStem + entry.slug)` pattern. -/
def entrySlugTag (stem : String) (entry : Option JsonVal) : List String :=
  if jsTruthy entry then
    match entry with
    | some e =>
      match e.getField "slug" with
      | some sl => if sl.truthy then [stem ++ sl.jsToString] else []
      | none => []
    | none => []
  else []

/-- Cache tags invalidated for a mutation event, per the source's
`model === 'blog'` / `model === 'category'` branches. -/
def mutationTags (model entry : Option JsonVal) : List String :=
  if jsStrictEqStr model "blog" then
    "blog_posts" :: entrySlugTag "blog_post:" entry
  else if jsStrictEqStr model "category" then
    "categories" :: entrySlugTag "category:" entry
  else []

/-- The 401 response `NextResponse.json({ message: 'Invalid token' }, { status: 401 })`. -/
def invalidTokenResponse : HttpResponse :=
  ⟨401, .jobj [("message", .jstr "Invalid token")]⟩

/-- The 400 response `NextResponse.json({ message: 'Bad request' }, { status: 400 })`. -/
def badRequestResponse : HttpResponse :=
  ⟨400, .jobj [("message", .jstr "Bad request")]⟩

/-- The success response `NextResponse.json({ revalidated: true, now: Date.now() })`. -/
def revalidatedResponse (now : Int) : HttpResponse :=
  ⟨200, .jobj [("revalidated", .jbool true), ("now", .jnum now)]⟩

/-- Embedding of the webhook route handler `POST`.

Arguments: the configured secret (`process.env.STRAPI_REVALIDATE_TOKEN`),
the current epoch milliseconds (`Date.now()`), the request's
`Authorization` header (`none` when absent), and the result of parsing the
request body as JSON (`none` when the body is not valid JSON, in which
case `await request.json()` rejects and the exception escapes the handler,
modelled as `Except.error .jsonParseError`).

The handler first compares the header against `Bearer <secret>`; then
parses the body and returns 400 when the parsed value is falsy; then, when
the `event` field is truthy and starts with `entry.`, invalidates the
cache tags selected by the `model` and `entry` fields; and finally
responds with the acknowledgement. Calling `startsWith` on a truthy
non-string `event` raises a `TypeError`. -/
def webhookPOST (secret : String) (now : Int) (auth : Option String)
    (parsedBody : Option JsonVal) : Except JsError WebhookOutcome :=
  if auth ≠ some ("Bearer " ++ secret) then
    .ok ⟨invalidTokenResponse, []⟩
  else
    match parsedBody with
    | none => .error .jsonParseError
    | some body =>
      if ¬ body.truthy then
        .ok ⟨badRequestResponse, []⟩
      else
        let event := body.getField "event"
        let model := body.getField "model"
        let entry := body.getField "entry"
        if jsTruthy event then
          match event with
          | some (.jstr s) =>
            if jsStartsWith s "entry." then
              .ok ⟨revalidatedResponse now, mutationTags model entry⟩
            else
              .ok ⟨revalidatedResponse now, []⟩
          | _ => .error (.typeError "event.startsWith is not a function")
        else
          .ok ⟨revalidatedResponse now, []⟩

/-! ## Sitemap assembler (`src/app/sitemap.ts`) -/

/-- Entry of the generated sitemap. `lastModified` keeps the timestamp
string handed to `new Date(...)` (for the home entry, the current time). -/
structure SitemapEntry where
  url : String
  lastModified : String
  changeFrequency : String
  priority : ℚ
deriving DecidableEq, Repr

/-- The single static home entry of the sitemap. -/
def homeEntry (now base : String) : SitemapEntry :=
  ⟨base, now, "daily", 1⟩

/-- Sitemap entry of one blog post:
`lastModified: new Date(post.updatedAt || post.createdAt)`, priority 0.8. -/
def postEntry (base : String) (p : Post) : SitemapEntry :=
  ⟨base ++ "/blog/" ++ p.slug, jsOrElse p.updatedAt p.createdAt, "weekly", 0.8⟩

/-- Sitemap entry of one category, priority 0.7. -/
def categoryEntry (base : String) (c : Category) : SitemapEntry :=
  ⟨base ++ "/category/" ++ c.slug, jsOrElse c.updatedAt c.createdAt, "weekly", 0.7⟩

/-- Embedding of the `sitemap` function: the static home entry, followed by
one entry per fetched post, followed by one entry per fetched category. -/
def sitemap (now base : String) (posts : List Post) (cats : List Category) :
    List SitemapEntry :=
  [homeEntry now base] ++ posts.map (postEntry base) ++ cats.map (categoryEntry base)

/-! ## Sidebar category sort (`src/app/components/sidebar.tsx`) -/

/-- Sort key of a category in the sidebar: the integer `parseInt` reads
from its description. The sidebar's comparator subtracts the two parsed
numbers, so it orders by this key ascending; `getD 0` is irrelevant under
the assumption (stated by the claims) that every description parses. -/
def categorySortKey (c : Category) : Int :=
  (jsParseInt c.description).getD 0

/-- Embedding of the sidebar's
`categories.sort((a, b) => parseInt(a.description, 10) - parseInt(b.description, 10))`:
a stable sort ordered by the parsed description number ascending
(JavaScript `Array.prototype.sort` is stable, as is `List.mergeSort`). -/
def sortedCategories (cats : List Category) : List Category :=
  cats.mergeSort (fun a b => categorySortKey a ≤ categorySortKey b)

/-! ## Query Builder (spec section 4.1)

The serialization in `src/lib/api.ts` is performed by the external `qs`
npm package, whose source is not part of the repository, so the Query
Builder's serialization convention and its inverse parser are modelled
from the specification: nested keys use bracket notation
(`filters[slug][$eq]=x`), pairs are joined with `&`, and keys and values
are percent-encoded. -/

/-- Hexadecimal digit character for a value below 16 (uppercase, as in
percent-encoding). -/
def hexDigitChar (n : Nat) : Char :=
  if n < 10 then Char.ofNat (48 + n) else Char.ofNat (55 + n)

/-- Percent-encoding of one character: characters that
`encodeURIComponent` leaves intact are kept, other single-byte characters
become `%XX`. (The model covers the ASCII inputs the claims use.) -/
def encChar (c : Char) : List Char :=
  if c.isAlphanum || c = '-' || c = '_' || c = '.' || c = '~'
      || c = '!' || c = '*' || c = '(' || c = ')' then [c]
  else if c.toNat < 256 then
    ['%', hexDigitChar (c.toNat / 16), hexDigitChar (c.toNat % 16)]
  else [c]

/-- Modelled from the spec: percent-encoding of keys and values as the
Query Builder's serialization applies it. -/
def percentEncode (s : String) : String :=
  ⟨(s.data.map encChar).flatten⟩

/-- Value of a hexadecimal digit character, `none` for other characters. -/
def hexVal (c : Char) : Option Nat :=
  if c.isDigit then some (c.toNat - 48)
  else if c.toNat ≥ 65 ∧ c.toNat ≤ 70 then some (c.toNat - 55)
  else if c.toNat ≥ 97 ∧ c.toNat ≤ 102 then some (c.toNat - 87)
  else none

/-- Percent-decoding of a character list; fails on a malformed escape. -/
def percentDecodeChars : List Char → Option (List Char)
  | [] => some []
  | '%' :: rest =>
    match rest with
    | h1 :: h2 :: rest2 => do
      let a ← hexVal h1
      let b ← hexVal h2
      let tl ← percentDecodeChars rest2
      pure (Char.ofNat (16 * a + b) :: tl)
    | _ => none
  | c :: rest => (percentDecodeChars rest).map (fun tl => c :: tl)

/-- Splitting a character list on a separator character. -/
def splitOnChar (sep : Char) : List Char → List (List Char)
  | [] => [[]]
  | c :: rest =>
    match splitOnChar sep rest with
    | [] => [[c]]
    | g :: gs => if c = sep then [] :: g :: gs else (c :: g) :: gs

/-- Scanner state while reading the bracket segments of a key such as
`filters[slug][$eq]`. -/
inductive BracketState where
  | between
  | inside (acc : List Char)

/-- One step of the bracket-segment scanner. -/
def bracketStep (st : BracketState × List (List Char)) (c : Char) :
    Option (BracketState × List (List Char)) :=
  match st.1 with
  | .between => if c = '[' then some (.inside [], st.2) else none
  | .inside acc =>
    if c = ']' then some (.between, st.2 ++ [acc])
    else if c = '[' then none
    else some (.inside (acc ++ [c]), st.2)

/-- Bracket segments of the tail of a key: `[slug][$eq]` yields
`[slug, $eq]`; fails on unbalanced brackets. -/
def bracketSegs (cs : List Char) : Option (List (List Char)) := do
  let (st, segs) ← cs.foldlM bracketStep (.between, [])
  match st with
  | .between => some segs
  | .inside _ => none

/-- Key path of a decoded key: `filters[slug][$eq]` yields
`["filters", "slug", "$eq"]`. -/
def keyPath (cs : List Char) : Option (List String) :=
  let headSeg := cs.takeWhile (fun c => c ≠ '[')
  let rest := cs.dropWhile (fun c => c ≠ '[')
  (bracketSegs rest).map (fun segs => (headSeg :: segs).map (fun seg => (⟨seg⟩ : String)))

/-- The structured input of the round-trip property: an equality filter on
the `slug` field plus pagination, as in
`{filters: {slug: {$eq: "x"}}, pagination: {page: 2, pageSize: 5}}`. -/
structure FilterPagination where
  slugEq : String
  page : Nat
  pageSize : Nat
deriving DecidableEq, Repr

/-- Modelled from the spec: the Query Builder's serialization of the
filter-plus-pagination request shape into the CMS's bracket query-string
convention, as `qs.stringify` produces it in `src/lib/api.ts`. -/
def qsStringifyFP (q : FilterPagination) : String :=
  String.intercalate "&"
    [percentEncode "filters[slug][$eq]" ++ "=" ++ percentEncode q.slugEq,
     percentEncode "pagination[page]" ++ "=" ++ percentEncode (toString q.page),
     percentEncode "pagination[pageSize]" ++ "=" ++ percentEncode (toString q.pageSize)]

/-- Decoded `key-path = value` pairs of a query string; fails when a pair
is not of the shape `key=value` or a key/escape is malformed. -/
def qsPairs (s : String) : Option (List (List String × String)) :=
  (splitOnChar '&' s.data).mapM fun pair =>
    match splitOnChar '=' pair with
    | [k, v] => do
      let kd ← percentDecodeChars k
      let vd ← percentDecodeChars v
      let path ← keyPath kd
      pure (path, (⟨vd⟩ : String))
    | _ => none

/-- Lookup of the value stored at a key path. -/
def lookupPath (pairs : List (List String × String)) (path : List String) : Option String :=
  (pairs.find? (fun pr => pr.1 == path)).map (fun pr => pr.2)

/-- Reading a scalar back as a number, as the CMS convention types the
pagination fields: the value must be a nonempty digit string. -/
def parseNatStr (s : String) : Option Nat :=
  if !s.data.isEmpty && s.data.all isDigitChar then some (digitsVal s.data) else none

/-- Modelled from the spec: the inverse query-string parser of the CMS
filtering convention. It genuinely parses the string (splits pairs,
percent-decodes, reads bracket key paths) and reconstructs the structured
filter and pagination values, typing the pagination fields as numbers. -/
def qsParseFP (s : String) : Option FilterPagination := do
  let pairs ← qsPairs s
  let slugv ← lookupPath pairs ["filters", "slug", "$eq"]
  let pagev ← lookupPath pairs ["pagination", "page"]
  let sizev ← lookupPath pairs ["pagination", "pageSize"]
  let page ← parseNatStr pagev
  let size ← parseNatStr sizev
  pure ⟨slugv, page, size⟩

/-! ## Helper lemmas -/

/-- The head of a filtered list is the first element satisfying the
predicate. -/
theorem head?_filter_eq_find? {α : Type} (p : α → Bool) (l : List α) :
    (l.filter p).head? = l.find? p := by
  induction l with
  | nil => rfl
  | cons a t ih =>
    rw [List.filter_cons]
    cases h : p a <;> simp [List.find?, h, ih]

/-- A decimal digit is not one of the whitespace characters skipped by
`parseInt`. -/
theorem not_jsSpace_of_digit {c : Char} (h : isDigitChar c = true) : isJsSpace c = false := by
  simp only [isDigitChar, Bool.and_eq_true, decide_eq_true_eq] at h
  simp only [isJsSpace, Bool.or_eq_false_iff, decide_eq_false_iff_not]
  omega

/-- Skipping whitespace leaves an all-digit character list unchanged. -/
theorem dropWhile_space_of_digits {l : List Char} (h : ∀ c ∈ l, isDigitChar c = true) :
    l.dropWhile isJsSpace = l := by
  cases l with
  | nil => rfl
  | cons a t =>
    rw [List.dropWhile_cons, not_jsSpace_of_digit (h a (List.mem_cons_self a t))]
    simp

/-- Taking digits from an all-digit character list keeps all of it. -/
theorem takeWhile_digits_self {l : List Char} (h : ∀ c ∈ l, isDigitChar c = true) :
    l.takeWhile isDigitChar = l := by
  induction l with
  | nil => rfl
  | cons a t ih =>
    rw [List.takeWhile_cons, h a (List.mem_cons_self a t)]
    simp only [if_true]
    rw [ih (fun c hc => h c (List.mem_cons_of_mem a hc))]

/-! ## Claims -/

/-- C1: for every slug `s`, when the backend response holds exactly the
posts of the store whose slug equals `s` (the `$eq` filter requested by
`getPostBySlug`), the function returns the first matching post; it returns
the not-found sentinel (`none`, embedding `null`) exactly when no post of
the store has slug `s`; any post it returns belongs to the store and has
slug exactly `s` (case-sensitive equality); and it propagates an error
only when the HTTP response was non-success. -/
theorem getPostBySlug_spec (store : List Post) (s : String) (resp : ListResponse)
    (h : resp.data = slugFilter store s) :
    getPostBySlug (.ok resp) = .ok (store.find? (fun p => p.slug == s)) ∧
    (getPostBySlug (.ok resp) = .ok none ↔ ∀ p ∈ store, p.slug ≠ s) ∧
    (∀ post, getPostBySlug (.ok resp) = .ok (some post) →
      post ∈ store ∧ post.slug = s) ∧
    (∀ e, getPostBySlug (.error e) = .error e) := by
  have hmain : getPostBySlug (.ok resp) = .ok (store.find? (fun p => p.slug == s)) := by
    simp only [getPostBySlug, h, slugFilter, head?_filter_eq_find?]
  refine ⟨hmain, ?_, ?_, fun e => rfl⟩
  · rw [hmain]
    constructor
    · intro he
      have : store.find? (fun p => p.slug == s) = none := by
        simpa using he
      rw [List.find?_eq_none] at this
      intro p hp
      simpa using this p hp
    · intro hall
      have : store.find? (fun p => p.slug == s) = none := by
        rw [List.find?_eq_none]
        intro p hp
        simpa using hall p hp
      rw [this]
  · intro post hpost
    rw [hmain] at hpost
    have hf : store.find? (fun p => p.slug == s) = some post := by
      simpa using hpost
    refine ⟨List.mem_of_find?_eq_some hf, ?_⟩
    have := List.find?_some hf
    simpa using this

/-- Sample store for the C1 witness: two posts match slug `abc`; posts
with slugs `Abc` and `ABC` differ only in case and are not matches. -/
def samplePosts : List Post :=
  [{ id := 1, title := "p1", slug := "Abc", description := "", createdAt := "2024-01-01",
     updatedAt := none, categories := [] },
   { id := 2, title := "p2", slug := "abc", description := "", createdAt := "2024-01-02",
     updatedAt := none, categories := [] },
   { id := 3, title := "p3", slug := "ABC", description := "", createdAt := "2024-01-03",
     updatedAt := none, categories := [] },
   { id := 4, title := "p4", slug := "abc", description := "", createdAt := "2024-01-04",
     updatedAt := none, categories := [] }]

/-- Backend response for the C1 witness: the store filtered by slug `abc`. -/
def sampleResp : ListResponse :=
  { data := slugFilter samplePosts "abc", meta := { page := 1, pageSize := 10, pageCount := 1, total := 2 } }

/-- Witness for C1 at a concrete store and slug. -/
theorem getPostBySlug_spec_witness :
    (sampleResp.data = slugFilter samplePosts "abc") ∧
    (getPostBySlug (.ok sampleResp) = .ok (samplePosts.find? (fun p => p.slug == "abc")) ∧
    (getPostBySlug (.ok sampleResp) = .ok none ↔ ∀ p ∈ samplePosts, p.slug ≠ "abc") ∧
    (∀ post, getPostBySlug (.ok sampleResp) = .ok (some post) →
      post ∈ samplePosts ∧ post.slug = "abc") ∧
    (∀ e, getPostBySlug (.error e) = .error e)) :=
  ⟨rfl, getPostBySlug_spec samplePosts "abc" sampleResp rfl⟩

/-- C2: for every page number `p` in `[1, pageCount]`, the rendered
pagination footer of the blog listing page and of the category listing
page contains the "Previous Page" control iff `p > 1` and the "Next Page"
control iff `p < pageCount`. -/
theorem pagination_controls_iff (p pc : Int) (slug : String)
    (_h1 : 1 ≤ p) (_h2 : p ≤ pc) :
    ((blogListControls (some p) pc).any isPrevCtrl = true ↔ 1 < p) ∧
    ((blogListControls (some p) pc).any isNextCtrl = true ↔ p < pc) ∧
    ((categoryControls slug (some p) pc).any isPrevCtrl = true ↔ 1 < p) ∧
    ((categoryControls slug (some p) pc).any isNextCtrl = true ↔ p < pc) := by
  refine ⟨?_, ?_, ?_, ?_⟩ <;>
    simp only [blogListControls, categoryControls, jsGtInt, jsLtInt, List.any_append] <;>
    by_cases hgt : 1 < p <;> by_cases hlt : p < pc <;>
    simp [hgt, hlt, isPrevCtrl, isNextCtrl]

/-- Witness for C2 at page 2 of 3. -/
theorem pagination_controls_iff_witness :
    ((1 : Int) ≤ 2 ∧ (2 : Int) ≤ 3) ∧
    (((blogListControls (some 2) 3).any isPrevCtrl = true ↔ (1 : Int) < 2) ∧
    ((blogListControls (some 2) 3).any isNextCtrl = true ↔ (2 : Int) < 3) ∧
    ((categoryControls "bike" (some 2) 3).any isPrevCtrl = true ↔ (1 : Int) < 2) ∧
    ((categoryControls "bike" (some 2) 3).any isNextCtrl = true ↔ (2 : Int) < 3)) :=
  ⟨by constructor <;> decide, pagination_controls_iff 2 3 "bike" (by decide) (by decide)⟩

/-- C4: the category listing page signals the not-found condition to the
routing layer exactly when the fetched list of posts is missing or empty;
in every other case it renders a page, never an empty list. -/
theorem categoryPage_notFound_iff (slug : String) (pageQ : Option String)
    (resp : CategoryListResponse) :
    categoryPage slug pageQ resp = .notFound ↔
      (resp.data = none ∨ resp.data = some []) := by
  unfold categoryPage
  cases hd : resp.data with
  | none => simp
  | some posts =>
    cases posts with
    | nil => simp
    | cons q t => simp

/-- C3 counterexample: for the non-numeric page parameter `"zzz"`, the page
number computed by the listing page assembler is `parseInt("zzz", 10)`,
which is `NaN` (embedded as `none`) — not the default 1 the claim states. -/
theorem pageParam_nonNumeric_is_nan :
    pageParam (some "zzz") = none ∧ pageParam (some "zzz") ≠ some 1 := by
  constructor
  · decide
  · decide

/-- C3 (amended): the page number used by the listing page assembler is 1
when the page parameter is absent or the empty string; when the parameter
is present and nonempty it is JavaScript `parseInt(param, 10)` — in
particular the parsed integer whenever the parameter is a digit string —
and `NaN` (not 1) when the parameter has no parsable integer; the page
size is always 10. -/
theorem pageParam_spec (s : String) (hne : s.data ≠ [])
    (hdig : ∀ c ∈ s.data, isDigitChar c = true) :
    pageParam none = some 1 ∧
    pageParam (some "") = some 1 ∧
    pageParam (some s) = jsParseInt s ∧
    pageParam (some s) = some ((digitsVal s.data : Nat) : Int) ∧
    pageSizeUsed = 10 := by
  have hs : s ≠ "" := by
    intro h
    apply hne
    rw [h]
  have hparse : jsParseInt s = some ((digitsVal s.data : Nat) : Int) := by
    unfold jsParseInt
    rw [dropWhile_space_of_digits hdig]
    cases hl : s.data with
    | nil => exact absurd hl hne
    | cons c t =>
      have hc : isDigitChar c = true := by
        rw [hl] at hdig
        exact hdig c (List.mem_cons_self c t)
      have hcm : c ≠ '-' := by
        intro h
        rw [h] at hc
        exact absurd hc (by decide)
      have hcp : c ≠ '+' := by
        intro h
        rw [h] at hc
        exact absurd hc (by decide)
      simp only [jsParseIntCore]
      rw [if_neg hcm, if_neg hcp]
      unfold digitRun
      have hall : ∀ d ∈ c :: t, isDigitChar d = true := by
        rw [hl] at hdig
        exact hdig
      rw [takeWhile_digits_self hall]
      simp [hl]
  refine ⟨rfl, rfl, ?_, ?_, rfl⟩
  · simp [pageParam, hs]
  · simp [pageParam, hs, hparse]

/-- Witness for C3 (amended) at the digit-string parameter `"37"`. -/
theorem pageParam_spec_witness :
    (("37" : String).data ≠ [] ∧ ∀ c ∈ ("37" : String).data, isDigitChar c = true) ∧
    (pageParam none = some 1 ∧
    pageParam (some "") = some 1 ∧
    pageParam (some "37") = jsParseInt "37" ∧
    pageParam (some "37") = some ((digitsVal ("37" : String).data : Nat) : Int) ∧
    pageSizeUsed = 10) :=
  ⟨⟨by decide, by decide⟩, pageParam_spec "37" (by decide) (by decide)⟩

/-- C5: a POST to the webhook whose Authorization header is not exactly
`Bearer <configured secret>` yields status 401 with body
`{ message: "Invalid token" }` and invalidates no cache tag, for every
request body (parseable or not). -/
theorem webhook_unauthorized (secret : String) (now : Int) (auth : Option String)
    (body : Option JsonVal) (h : auth ≠ some ("Bearer " ++ secret)) :
    webhookPOST secret now auth body =
      .ok ⟨⟨401, .jobj [("message", .jstr "Invalid token")]⟩, []⟩ := by
  unfold webhookPOST
  rw [if_pos h]
  rfl

/-- Witness for C5 with a wrong bearer token. -/
theorem webhook_unauthorized_witness :
    (some "Bearer wrong" ≠ some ("Bearer " ++ "topsecret")) ∧
    webhookPOST "topsecret" 0 (some "Bearer wrong") (some .jnull) =
      .ok ⟨⟨401, .jobj [("message", .jstr "Invalid token")]⟩, []⟩ :=
  ⟨by decide, webhook_unauthorized "topsecret" 0 (some "Bearer wrong") (some .jnull) (by decide)⟩

/-- C6 counterexample: with the correct bearer token and an unparseable
body, `await request.json()` rejects and the exception escapes the handler
(there is no try/catch), so the endpoint does not respond
`400 { message: "Bad request" }`; the `if (!body)` guard never runs. -/
theorem webhook_unparseable_body_no_400 :
    webhookPOST "secret" 0 (some "Bearer secret") none = .error .jsonParseError ∧
    webhookPOST "secret" 0 (some "Bearer secret") none ≠
      .ok ⟨⟨400, .jobj [("message", .jstr "Bad request")]⟩, []⟩ := by
  have h1 : webhookPOST "secret" 0 (some "Bearer secret") none = .error .jsonParseError := by
    unfold webhookPOST
    rw [if_neg (by simp)]
  refine ⟨h1, ?_⟩
  rw [h1]
  simp

/-- C6 (amended): with the correct bearer token, the endpoint responds
`400 { message: "Bad request" }` (invalidating nothing) when the body
parses as JSON to a falsy value such as JSON `null`; a body that fails to
parse as JSON instead makes the handler throw the parse exception — no
400 response is produced for it. -/
theorem webhook_falsy_body_bad_request (secret : String) (now : Int) :
    webhookPOST secret now (some ("Bearer " ++ secret)) (some .jnull) =
      .ok ⟨⟨400, .jobj [("message", .jstr "Bad request")]⟩, []⟩ ∧
    webhookPOST secret now (some ("Bearer " ++ secret)) none = .error .jsonParseError := by
  constructor
  · unfold webhookPOST
    rw [if_neg (by simp)]
    rfl
  · unfold webhookPOST
    rw [if_neg (by simp)]

/-- C7: a POST to the webhook with the correct bearer token and body
`{ event: "entry.update", model: "blog", entry: { slug: "abc" } }`
invalidates the generic `blog_posts` tag and the slug-specific
`blog_post:abc` tag, in that order, and responds
`{ revalidated: true, now: <epoch-ms> }`. -/
theorem webhook_blog_update_revalidates (secret : String) (now : Int) :
    webhookPOST secret now (some ("Bearer " ++ secret))
      (some (.jobj [("event", .jstr "entry.update"), ("model", .jstr "blog"),
        ("entry", .jobj [("slug", .jstr "abc")])])) =
      .ok ⟨⟨200, .jobj [("revalidated", .jbool true), ("now", .jnum now)]⟩,
        ["blog_posts", "blog_post:abc"]⟩ := by
  unfold webhookPOST
  rw [if_neg (by simp)]
  rfl

/-- C8: for every fetched list of posts and categories, the sitemap is
exactly one home entry followed by one entry per fetched post and one
entry per fetched category; counting by priority there is exactly one
entry of priority 1.0, one of priority 0.8 per post, and one of priority
0.7 per category; every post/category entry's last-modified timestamp is
the update timestamp when present (and nonempty), else the creation
timestamp. -/
theorem sitemap_spec (now base : String) (posts : List Post) (cats : List Category) :
    sitemap now base posts cats =
      homeEntry now base :: (posts.map (postEntry base) ++ cats.map (categoryEntry base)) ∧
    (sitemap now base posts cats).length = 1 + posts.length + cats.length ∧
    (sitemap now base posts cats).countP (fun e => decide (e.priority = 1)) = 1 ∧
    (sitemap now base posts cats).countP (fun e => decide (e.priority = 0.8)) = posts.length ∧
    (sitemap now base posts cats).countP (fun e => decide (e.priority = 0.7)) = cats.length ∧
    (homeEntry now base).priority = 1 ∧
    (∀ p : Post, (postEntry base p).priority = 0.8 ∧
      (postEntry base p).lastModified = jsOrElse p.updatedAt p.createdAt) ∧
    (∀ c : Category, (categoryEntry base c).priority = 0.7 ∧
      (categoryEntry base c).lastModified = jsOrElse c.updatedAt c.createdAt) := by
  refine ⟨rfl, ?_, ?_, ?_, ?_, rfl, fun p => ⟨rfl, rfl⟩, fun c => ⟨rfl, rfl⟩⟩
  · simp only [sitemap, List.length_append, List.length_map, List.length_cons,
      List.length_nil, Nat.add_comm]
  · simp only [sitemap, List.countP_append, List.countP_map, List.countP_cons,
      List.countP_nil, Function.comp_def, homeEntry, postEntry, categoryEntry]
    norm_num [List.countP_eq_length]
  · simp only [sitemap, List.countP_append, List.countP_map, List.countP_cons,
      List.countP_nil, Function.comp_def, homeEntry, postEntry, categoryEntry]
    norm_num [List.countP_eq_length]
  · simp only [sitemap, List.countP_append, List.countP_map, List.countP_cons,
      List.countP_nil, Function.comp_def, homeEntry, postEntry, categoryEntry]
    norm_num [List.countP_eq_length]

/-- C9: serializing the structured input
`{filters: {slug: {$eq: "x"}}, pagination: {page: 2, pageSize: 5}}` with
the Query Builder and parsing the produced query string with the inverse
parser reconstructs identical filter and pagination values; the produced
string is also recorded explicitly. -/
theorem qs_roundtrip :
    qsParseFP (qsStringifyFP ⟨"x", 2, 5⟩) = some ⟨"x", 2, 5⟩ ∧
    qsStringifyFP ⟨"x", 2, 5⟩ =
      "filters%5Bslug%5D%5B%24eq%5D=x&pagination%5Bpage%5D=2&pagination%5BpageSize%5D=5" := by
  constructor
  · decide
  · decide

/-- C10: when every fetched category's description parses to an integer,
the sidebar's sorted category list is a permutation of the fetched list
(so the categories themselves are unchanged, only reordered), arranged in
ascending order of the integer parsed from each description. -/
theorem sortedCategories_spec (cats : List Category)
    (h : ∀ c ∈ cats, (jsParseInt c.description).isSome = true) :
    (sortedCategories cats).Perm cats ∧
    (sortedCategories cats).Pairwise (fun a b => categorySortKey a ≤ categorySortKey b) ∧
    (∀ c ∈ cats, jsParseInt c.description = some (categorySortKey c)) := by
  refine ⟨List.mergeSort_perm cats _, ?_, ?_⟩
  · have hs := @List.sorted_mergeSort Category
      (fun a b => decide (categorySortKey a ≤ categorySortKey b))
      (fun a b c hab hbc => by
        simp only [decide_eq_true_eq] at *
        exact le_trans hab hbc)
      (fun a b => by
        simp only [Bool.or_eq_true, decide_eq_true_eq]
        exact le_total _ _)
      cats
    exact hs.imp (fun hab => by simpa using hab)
  · intro c hc
    have hsome := h c hc
    cases hp : jsParseInt c.description with
    | none => rw [hp] at hsome; simp at hsome
    | some v => simp [categorySortKey, hp]

/-- Sample category list for the C10 witness: descriptions parse to
3, 1, 2. -/
def sampleCats : List Category :=
  [{ id := 1, name := "road", slug := "road", description := "3",
     createdAt := "2024-01-01", updatedAt := none },
   { id := 2, name := "mtb", slug := "mtb", description := "1",
     createdAt := "2024-01-01", updatedAt := none },
   { id := 3, name := "gravel", slug := "gravel", description := "2",
     createdAt := "2024-01-01", updatedAt := none }]

/-- Witness for C10 at a concrete category list. -/
theorem sortedCategories_spec_witness :
    (∀ c ∈ sampleCats, (jsParseInt c.description).isSome = true) ∧
    ((sortedCategories sampleCats).Perm sampleCats ∧
    (sortedCategories sampleCats).Pairwise
      (fun a b => categorySortKey a ≤ categorySortKey b) ∧
    (∀ c ∈ sampleCats, jsParseInt c.description = some (categorySortKey c))) :=
  ⟨by decide, sortedCategories_spec sampleCats (by decide)⟩

end Blog
